import Mathlib

/-!
Shallow embedding of `taipy/core/data/mongo.py` (class `MongoCollectionDataNode`)
and proofs about its behaviour.

Modelling conventions:
* A Mongo document (a Python `dict` persisted in the collection) is an
  association list `Doc` from string keys to values; Python `dict`s have
  unique keys, duplicates never arise in the inputs we consider.
* The pymongo driver is external to the file under study: `insert_many`
  is modelled as appending its argument list to the collection state, a
  cursor over `find()` (no filter) as the list of stored elements in
  natural (insertion) order, and `collection.drop()` as the empty state.
* Python is duck-typed: callers may pass values outside the `Operator` /
  `JoinOperator` enums to `_read_by_query`.  The `other` constructors of
  `Operator` and `JoinOperator` below stand for any such value; Python's
  `==` against an enum member is `false` on them.
* The `_check_dependency_is_installed` guard depends only on the ambient
  environment (whether pymongo is importable), not on the arguments; we
  model construction in an environment where the dependency is present.
-/

namespace Mongo

/-- Primitive values stored in document fields. -/
inductive Value where
  | str (s : String)
  | int (n : Int)
  deriving DecidableEq, Repr

/-- A Mongo document: a Python `dict` mapping string keys to values. -/
abbrev Doc := List (String × Value)

/-- The keys of a document, in order. -/
def docKeys (d : Doc) : List String := d.map (·.1)

/-- A Python object as the default codec sees it: its `__dict__`
attribute mapping field names to current values. -/
structure PyObject where
  dict : Doc
  deriving DecidableEq, Repr

/-- A Python exception surfaced by the modelled fragments. -/
inductive PyError where
  | typeError
  deriving DecidableEq, Repr

/-- A custom-document class whose constructor accepts exactly the
keyword arguments named in `ctorFields` and assigns each to a
same-named attribute (the class shape the round-trip law quantifies
over). -/
structure KwClass where
  ctorFields : List String
  deriving DecidableEq, Repr

/-- Whether a keyword-argument key set matches a constructor's accepted
field names exactly (Python `dict` keys are unique, so mutual
containment is set equality). -/
def keysMatch (keys fields : List String) : Bool :=
  fields.all (fun f => keys.contains f) && keys.all (fun k => fields.contains k)

/-- Calling `cls(**kwargs)` on a `KwClass`: succeeds with an object whose
`__dict__` is exactly the keyword-argument mapping when the keys match
the accepted constructor fields, raises `TypeError` otherwise. -/
def kwCall (cls : KwClass) (kwargs : Doc) : Except PyError PyObject :=
  if keysMatch (docKeys kwargs) cls.ctorFields then .ok ⟨kwargs⟩ else .error .typeError

/-- `_default_decoder` (mongo.py lines 270-278):
`return self.custom_document(**document)`. -/
def defaultDecoder (customDocument : KwClass) (document : Doc) : Except PyError PyObject :=
  kwCall customDocument document

/-- `_default_encoder` (mongo.py lines 280-289):
`return document_object.__dict__`. -/
def defaultEncoder (documentObject : PyObject) : Doc :=
  documentObject.dict

/-! ## Construction and validation (`__init__`, lines 91-179) -/

/-- A value stored in the `properties` mapping passed to `__init__`.
`cls` is a class object (Python `inspect.isclass` is true exactly
there); the remaining constructors are representative non-class
values. -/
inductive PropValue where
  | cls (c : KwClass)
  | str (s : String)
  | int (n : Int)
  | obj (o : PyObject)
  deriving DecidableEq, Repr

/-- `inspect.isclass` on a property value. -/
def PropValue.isClass : PropValue → Bool
  | .cls _ => true
  | _ => false

/-- The `properties` dictionary given to the constructor. -/
abbrev Properties := List (String × PropValue)

/-- The keys of the properties mapping. -/
def propKeys (props : Properties) : List String := props.map (·.1)

/-- Python `properties[key]` / `properties.get(key)` lookup (keys are
unique in a Python dict; the first binding wins). -/
def lookupProp (key : String) : Properties → Option PropValue
  | [] => none
  | (k, v) :: rest => if k = key then some v else lookupProp key rest

/-- `_REQUIRED_PROPERTIES` (mongo.py lines 86-89). -/
def requiredProperties : List String := ["db_name", "collection_name"]

/-- `_CUSTOM_DOCUMENT_PROPERTY` (mongo.py line 85). -/
def customDocumentProperty : String := "custom_document"

/-- Errors raised during construction. `keyError` models the Python
`KeyError` raised by the subscript `properties[self._CUSTOM_DOCUMENT_PROPERTY]`
when the key is absent. -/
inductive InitError where
  | missingRequiredProperty (missing : List String)
  | keyError (key : String)
  | invalidCustomDocument
  deriving DecidableEq, Repr

/-- The part of the adapter state that the validated construction
establishes from the properties mapping. -/
structure AdapterConfig where
  customDocument : KwClass
  deriving DecidableEq, Repr

/-- `_check_custom_document` (mongo.py lines 175-179): raises
`InvalidCustomDocument` when the value is not a class (`inspect.isclass`
is true exactly on `PropValue.cls`). -/
def checkCustomDocument (customDocument : PropValue) : Except InitError Unit :=
  if customDocument.isClass then .ok () else .error .invalidCustomDocument

/-- The validation prefix of `__init__` (mongo.py lines 107-146):
computes `missing := set(required) - set(properties.keys())` and raises
`MissingRequiredProperty` when non-empty; then subscripts
`properties["custom_document"]` (Python `KeyError` when absent) and
runs `_check_custom_document` on it.  Connection setup and codec
resolution (external collaborators) follow only after these checks
pass; the surviving configured state is the custom-document class
(`self.custom_document`, line 146). -/
def mongoInit (properties : Properties) : Except InitError AdapterConfig :=
  let missing := requiredProperties.filter (fun k => ! (propKeys properties).contains k)
  if missing ≠ [] then
    .error (.missingRequiredProperty missing)
  else
    match lookupProp customDocumentProperty properties with
    | none => .error (.keyError customDocumentProperty)
    | some v =>
      match checkCustomDocument v, v with
      | .error e, _ => .error e
      | .ok (), .cls c => .ok ⟨c⟩
      | .ok (), _ => .error .invalidCustomDocument

/-! ## Query translation (`_read_by_query`, lines 193-224) -/

/-- Comparison operators.  The first six constructors are the members of
the `Operator` enum (`taipy.core.data.operator`); `other` stands for any
non-member value a duck-typed caller may put in the triple, on which
every `operator == Operator.X` comparison in the chain is false. -/
inductive Operator where
  | EQUAL
  | NOT_EQUAL
  | GREATER_THAN
  | GREATER_OR_EQUAL
  | LESS_THAN
  | LESS_OR_EQUAL
  | other (tag : String)
  deriving DecidableEq, Repr

/-- Join modes.  `AND` and `OR` are the members of the `JoinOperator`
enum; `other` stands for any non-member value a duck-typed caller may
pass, unequal to both members. -/
inductive JoinOperator where
  | AND
  | OR
  | other (tag : String)
  deriving DecidableEq, Repr

/-- A query condition triple `(key, value, operator)`. -/
abbrev Condition := String × Value × Operator

/-- The `operators` argument of `_read_by_query`: either a single bare
condition tuple or a list of conditions (`if not isinstance(operators,
List): operators = [operators]`). -/
inductive OperatorsArg where
  | single (c : Condition)
  | list (cs : List Condition)
  deriving DecidableEq, Repr

/-- A single-field predicate dictionary appended to `conditions`:
`eq k v` is `{k: v}`, `ne k v` is `{k: {"$ne": v}}`, `gt`/`gte`/`lt`/`lte`
are `{k: {"$gt": v}}` and so on (mongo.py lines 203-214). -/
inductive MongoPred where
  | eq (key : String) (v : Value)
  | ne (key : String) (v : Value)
  | gt (key : String) (v : Value)
  | gte (key : String) (v : Value)
  | lt (key : String) (v : Value)
  | lte (key : String) (v : Value)
  deriving DecidableEq, Repr

/-- The filter argument finally passed to `collection.find`:
`all` is the bare `find()` call (match every document); `andQ conds` is
`find({"$and": conds})` and `orQ conds` is `find({"$or": conds})`. -/
inductive FindArg where
  | all
  | andQ (conds : List MongoPred)
  | orQ (conds : List MongoPred)
  deriving DecidableEq, Repr

/-- Errors raised by `_read_by_query`: `notImplemented` models the
`NotImplementedError` (the spec's `NotSupported`) for join modes other
than AND/OR (line 222). -/
inductive QueryError where
  | notImplemented
  deriving DecidableEq, Repr

/-- Whether an operator value is one of the six `Operator` enum members
(exactly the values the `elif` chain of `_read_by_query` recognizes). -/
def Operator.isMember : Operator → Bool
  | .other _ => false
  | _ => true

/-- Modelled from the spec (section 4.2): the single-field predicate the
spec's table assigns to a condition — EQUAL to equality, NOT_EQUAL to
`$ne`, GREATER_THAN to `$gt`, GREATER_OR_EQUAL to `$gte`, LESS_THAN to
`$lt`, LESS_OR_EQUAL to `$lte` — and no predicate outside the table.
Stated from the spec's words, to be compared with the source-translated
`condPredicates`. -/
def specPredicate : Condition → Option MongoPred
  | (key, value, .EQUAL) => some (.eq key value)
  | (key, value, .NOT_EQUAL) => some (.ne key value)
  | (key, value, .GREATER_THAN) => some (.gt key value)
  | (key, value, .GREATER_OR_EQUAL) => some (.gte key value)
  | (key, value, .LESS_THAN) => some (.lt key value)
  | (key, value, .LESS_OR_EQUAL) => some (.lte key value)
  | (_, _, .other _) => none

/-- The `for key, value, operator in operators` loop (lines 201-214):
accumulates one predicate per condition whose operator matches one of
the six `elif` arms, and silently skips a condition whose operator
matches none (the chain has no `else`). -/
def condPredicates : List Condition → List MongoPred
  | [] => []
  | (key, value, operator) :: rest =>
    match operator with
    | .EQUAL => MongoPred.eq key value :: condPredicates rest
    | .NOT_EQUAL => MongoPred.ne key value :: condPredicates rest
    | .GREATER_THAN => MongoPred.gt key value :: condPredicates rest
    | .GREATER_OR_EQUAL => MongoPred.gte key value :: condPredicates rest
    | .LESS_THAN => MongoPred.lt key value :: condPredicates rest
    | .LESS_OR_EQUAL => MongoPred.lte key value :: condPredicates rest
    | .other _ => condPredicates rest

/-- `_read_by_query` (lines 193-224), returning the filter handed to
`collection.find`.  `none` is the absent-argument call `_read_by_query()`;
`if not operators` is true on `none` and on the empty list, so both
return the bare `find()` before the join mode is ever examined; a bare
condition is wrapped into a one-element list; then the predicate list is
built and wrapped in `$and`/`$or` according to the join mode, any other
join mode raising `NotImplementedError`. -/
def readByQuery (operators : Option OperatorsArg) (joinOperator : JoinOperator) :
    Except QueryError FindArg :=
  match operators with
  | none => .ok .all
  | some (.list []) => .ok .all
  | some arg =>
    let ops : List Condition :=
      match arg with
      | .single c => [c]
      | .list cs => cs
    let conditions := condPredicates ops
    match joinOperator with
    | .AND => .ok (.andQ conditions)
    | .OR => .ok (.orQ conditions)
    | .other _ => .error .notImplemented

/-! ## Write, append and read (lines 189-268) -/

/-- An element of the data passed to `_write`/`_append`, and an element
stored in the collection: either a plain `dict` (a document) or a
non-dict custom object.  `isinstance(x, dict)` is `Datum.isDict`. -/
inductive Datum where
  | dict (d : Doc)
  | obj (o : PyObject)
  deriving DecidableEq, Repr

/-- `isinstance(x, dict)`. -/
def Datum.isDict : Datum → Bool
  | .dict _ => true
  | _ => false

/-- The argument of `_write`/`_append`: a Python value that is either a
list or a single non-list element. -/
inductive PyData where
  | single (x : Datum)
  | list (xs : List Datum)
  deriving DecidableEq, Repr

/-- `if not isinstance(data, list): data = [data]` (lines 228-229 and
245-246). -/
def normalizeData : PyData → List Datum
  | .single x => [x]
  | .list xs => xs

/-- The collection state: the stored elements in natural (insertion)
order. -/
abbrev Collection := List Datum

/-- `_insert_dicts` (lines 257-268): optionally `collection.drop()`,
then `collection.insert_many(data)` (modelled as appending the data in
order). -/
def insertDicts (coll : Collection) (data : List Datum) (dropFirst : Bool) : Collection :=
  (if dropFirst then [] else coll) ++ data

/-- `_append` (lines 226-237): normalize, return unchanged on the empty
list, insert as-is when the first element is a dict, otherwise insert
the encoded rows.  `enc` is the resolved `self._encoder`. -/
def appendData (enc : Datum → Doc) (data : PyData) (coll : Collection) : Collection :=
  match normalizeData data with
  | [] => coll
  | x :: rest =>
    if x.isDict then insertDicts coll (x :: rest) false
    else insertDicts coll ((x :: rest).map fun row => Datum.dict (enc row)) false

/-- `_write` (lines 239-255): normalize, `collection.drop()` and return
on the empty list, otherwise insert with `drop=True` (as-is when the
first element is a dict, encoded rows otherwise). -/
def writeData (enc : Datum → Doc) (data : PyData) (coll : Collection) : Collection :=
  match normalizeData data with
  | [] => []
  | x :: rest =>
    if x.isDict then insertDicts coll (x :: rest) true
    else insertDicts coll ((x :: rest).map fun row => Datum.dict (enc row)) true

/-- `_read` (lines 189-191): `_read_by_query()` with no filter yields a
cursor over every stored element, and each row is decoded with the
resolved `self._decoder`. -/
def readAll {α : Type} (dec : Datum → α) (coll : Collection) : List α :=
  coll.map dec

/-! ## Theorems -/

/-- C1: `_write` normalizes a non-list input to a one-element list; when
the normalized list is empty it drops the collection and returns, so a
subsequent `readAll` returns the empty list; when it is non-empty it
drops the existing contents and inserts the (possibly encoded) elements,
so a subsequent `readAll` returns exactly the decoded forms of the
written elements with every prior document gone (the result does not
depend on the prior collection state `coll`). -/
theorem write_then_readAll {α : Type} (enc : Datum → Doc) (dec : Datum → α)
    (data : PyData) (coll : Collection) :
    (∀ x, writeData enc (.single x) coll = writeData enc (.list [x]) coll)
    ∧ (normalizeData data = [] →
        writeData enc data coll = [] ∧ readAll dec (writeData enc data coll) = [])
    ∧ (∀ x rest, normalizeData data = x :: rest →
        readAll dec (writeData enc data coll) =
          (if x.isDict then x :: rest
           else (x :: rest).map fun row => Datum.dict (enc row)).map dec) := by
  refine ⟨fun x => rfl, ?_, ?_⟩
  · intro h
    simp [writeData, h, readAll]
  · intro x rest h
    by_cases hx : x.isDict <;> simp [writeData, h, insertDicts, readAll, hx]

/-- Witness for C1: writing a one-document list over a collection that
holds one prior object leaves exactly the new document after reading. -/
theorem write_then_readAll_witness :
    readAll (fun r => r)
        (writeData (fun _ => []) (PyData.list [Datum.dict [("a", Value.int 1)]])
          [Datum.obj ⟨[("b", Value.int 2)]⟩])
      = [Datum.dict [("a", Value.int 1)]] := by
  have h := (write_then_readAll (fun _ => []) (fun r => r)
      (PyData.list [Datum.dict [("a", Value.int 1)]])
      [Datum.obj ⟨[("b", Value.int 2)]⟩]).2.2
      (Datum.dict [("a", Value.int 1)]) [] rfl
  simpa using h

/-- Counterexample for C2: a two-element list whose first element is a
dict and whose second is a non-dict object is not made of plain mappings
only, yet `_append` inserts it as-is (the branch tests only `data[0]`),
not the element-wise encoded list the claim requires. -/
theorem append_encode_counterexample :
    appendData (fun _ => [("e", Value.int 9)])
        (PyData.list [Datum.dict [("a", Value.int 1)], Datum.obj ⟨[("b", Value.int 2)]⟩]) []
      = [Datum.dict [("a", Value.int 1)], Datum.obj ⟨[("b", Value.int 2)]⟩]
    ∧ appendData (fun _ => [("e", Value.int 9)])
        (PyData.list [Datum.dict [("a", Value.int 1)], Datum.obj ⟨[("b", Value.int 2)]⟩]) []
      ≠ [Datum.dict [("e", Value.int 9)], Datum.dict [("e", Value.int 9)]]
    ∧ Datum.isDict (Datum.obj ⟨[("b", Value.int 2)]⟩) = false :=
  ⟨rfl, by decide, rfl⟩

/-- C2 (amended): for every non-empty normalized input list, `_append`
and the non-empty branch of `_write` dispatch on the first element
only: when the first element is a dict the whole list is inserted
as-is, otherwise every element is encoded with the resolved encode
function and the encoded results are inserted. -/
theorem append_write_first_element_dispatch (enc : Datum → Doc) (coll : Collection)
    (x : Datum) (rest : List Datum) :
    (x.isDict = true →
        appendData enc (.list (x :: rest)) coll = coll ++ (x :: rest)
        ∧ writeData enc (.list (x :: rest)) coll = x :: rest)
    ∧ (x.isDict = false →
        appendData enc (.list (x :: rest)) coll
            = coll ++ (x :: rest).map (fun row => Datum.dict (enc row))
        ∧ writeData enc (.list (x :: rest)) coll
            = (x :: rest).map fun row => Datum.dict (enc row)) := by
  constructor <;> intro hx <;>
    simp [appendData, writeData, normalizeData, insertDicts, hx]

/-- Witness for the amended C2: appending a one-object list to a
one-document collection inserts the encoded form of the object. -/
theorem append_write_first_element_dispatch_witness :
    appendData (fun _ => [("e", Value.int 9)]) (PyData.list [Datum.obj ⟨[]⟩])
        [Datum.dict [("a", Value.int 1)]]
      = [Datum.dict [("a", Value.int 1)], Datum.dict [("e", Value.int 9)]] := by
  have h := (append_write_first_element_dispatch (fun _ => [("e", Value.int 9)])
      [Datum.dict [("a", Value.int 1)]] (Datum.obj ⟨[]⟩) []).2 rfl
  simpa using h.1

/-- Counterexample for C3: with an empty (or absent) condition sequence,
`_read_by_query` returns the bare match-all `find()` before the join
mode is ever examined, so a join mode outside AND/OR does not raise. -/
theorem bad_join_empty_conditions_counterexample :
    readByQuery (some (.list [])) (.other "INNER") = .ok .all
    ∧ readByQuery none (.other "INNER") = .ok .all
    ∧ readByQuery (some (.list [])) (.other "INNER") ≠ .error .notImplemented :=
  ⟨rfl, rfl, fun h => Except.noConfusion h⟩

/-- C3 (amended): for every condition sequence that is non-empty after
normalization (a bare condition or a non-empty list) and every join
mode outside AND/OR, translation fails with the not-implemented
error. -/
theorem bad_join_nonempty_raises (c : Condition) (cs : List Condition) (tag : String) :
    readByQuery (some (.single c)) (.other tag) = .error .notImplemented
    ∧ readByQuery (some (.list (c :: cs))) (.other tag) = .error .notImplemented :=
  ⟨rfl, rfl⟩

/-- C4: for every properties mapping that lacks the key `db_name` or the
key `collection_name`, construction fails with `MissingRequiredProperty`
(carrying a non-empty list of missing keys). -/
theorem init_missing_required_property (props : Properties)
    (h : "db_name" ∉ propKeys props ∨ "collection_name" ∉ propKeys props) :
    ∃ missing, mongoInit props = .error (.missingRequiredProperty missing)
      ∧ missing ≠ [] := by
  by_cases hdb : "db_name" ∈ propKeys props <;>
    by_cases hcol : "collection_name" ∈ propKeys props
  · rcases h with h | h <;> simp_all
  · exact ⟨["collection_name"],
      by simp [mongoInit, requiredProperties, hdb, hcol], by simp⟩
  · exact ⟨["db_name"], by simp [mongoInit, requiredProperties, hdb, hcol], by simp⟩
  · exact ⟨["db_name", "collection_name"],
      by simp [mongoInit, requiredProperties, hdb, hcol], by simp⟩

/-- Witness for C4: the empty properties mapping is rejected with
`MissingRequiredProperty`. -/
theorem init_missing_required_property_witness :
    ∃ missing, mongoInit [] = .error (.missingRequiredProperty missing)
      ∧ missing ≠ [] :=
  init_missing_required_property [] (Or.inl (by simp [propKeys]))

/-- C5: `custom_document` is required in the sense that construction
always fails with some raised error when it is absent, even when
`db_name` and `collection_name` are present (the subscript raises
`KeyError`); no adapter configuration is produced. -/
theorem init_missing_custom_document_fails (props : Properties)
    (h : lookupProp customDocumentProperty props = none) :
    ∃ e, mongoInit props = .error e := by
  by_cases hdb : "db_name" ∈ propKeys props <;>
    by_cases hcol : "collection_name" ∈ propKeys props
  · exact ⟨.keyError customDocumentProperty,
      by simp [mongoInit, requiredProperties, hdb, hcol, h]⟩
  · exact ⟨.missingRequiredProperty ["collection_name"],
      by simp [mongoInit, requiredProperties, hdb, hcol]⟩
  · exact ⟨.missingRequiredProperty ["db_name"],
      by simp [mongoInit, requiredProperties, hdb, hcol]⟩
  · exact ⟨.missingRequiredProperty ["db_name", "collection_name"],
      by simp [mongoInit, requiredProperties, hdb, hcol]⟩

/-- Witness for C5: a properties mapping holding only `db_name` and
`collection_name` is rejected. -/
theorem init_missing_custom_document_fails_witness :
    ∃ e, mongoInit [("db_name", .str "db"), ("collection_name", .str "c")] = .error e :=
  init_missing_custom_document_fails
    [("db_name", .str "db"), ("collection_name", .str "c")] (by decide)

/-- C6: for every properties mapping that contains `db_name` and
`collection_name` and whose `custom_document` value is not a class,
construction fails with `InvalidCustomDocument`. -/
theorem init_invalid_custom_document (props : Properties) (v : PropValue)
    (h1 : "db_name" ∈ propKeys props)
    (h2 : "collection_name" ∈ propKeys props)
    (h3 : lookupProp customDocumentProperty props = some v)
    (h4 : v.isClass = false) :
    mongoInit props = .error .invalidCustomDocument := by
  cases v <;>
    simp_all [mongoInit, requiredProperties, h1, h2, h3, checkCustomDocument,
      PropValue.isClass]

/-- Witness for C6: an integer `custom_document` value is rejected with
`InvalidCustomDocument`. -/
theorem init_invalid_custom_document_witness :
    mongoInit [("db_name", .str "db"), ("collection_name", .str "c"),
        ("custom_document", .int 0)] = .error .invalidCustomDocument :=
  init_invalid_custom_document
    [("db_name", .str "db"), ("collection_name", .str "c"), ("custom_document", .int 0)]
    (.int 0) (by decide) (by decide) (by decide) rfl

/-- C7: the query translator returns the match-all filter on an absent
or empty condition sequence (for every join mode); it treats a bare
condition as a one-element sequence; the predicate list it builds maps
each condition to the spec's single-field predicate (equality, `$ne`,
`$gt`, `$gte`, `$lt`, `$lte`); and a non-empty condition list is wrapped
in a conjunction under AND and a disjunction under OR. -/
theorem read_by_query_translation (j : JoinOperator) (c : Condition)
    (ds cs : List Condition) (h : cs ≠ []) :
    readByQuery none j = .ok .all
    ∧ readByQuery (some (.list [])) j = .ok .all
    ∧ readByQuery (some (.single c)) j = readByQuery (some (.list [c])) j
    ∧ condPredicates ds = ds.filterMap specPredicate
    ∧ readByQuery (some (.list cs)) .AND = .ok (.andQ (condPredicates cs))
    ∧ readByQuery (some (.list cs)) .OR = .ok (.orQ (condPredicates cs)) := by
  have hfm : ∀ es : List Condition, condPredicates es = es.filterMap specPredicate := by
    intro es
    induction es with
    | nil => rfl
    | cons head tail ih =>
      obtain ⟨k, v, op⟩ := head
      cases op <;> simp [condPredicates, specPredicate, List.filterMap_cons, ih]
  refine ⟨rfl, rfl, rfl, hfm ds, ?_, ?_⟩ <;>
    · cases cs with
      | nil => exact absurd rfl h
      | cons x rest => rfl

/-- Witness for C7: two conditions joined with OR translate to the
disjunction of a `$gt` predicate and an equality predicate. -/
theorem read_by_query_translation_witness :
    readByQuery (some (.list [("age", Value.int 30, Operator.GREATER_THAN),
        ("name", Value.str "Bob", Operator.EQUAL)])) .OR
      = .ok (.orQ [.gt "age" (Value.int 30), .eq "name" (Value.str "Bob")]) := by
  have h := (read_by_query_translation .OR ("x", Value.int 0, .EQUAL) []
      [("age", Value.int 30, Operator.GREATER_THAN), ("name", Value.str "Bob", Operator.EQUAL)]
      (by simp)).2.2.2.2.2
  simpa [condPredicates] using h

/-- C8: round-trip law of the default codec — for a stored document
whose keys exactly match the accepted constructor fields of the custom
document class (whose constructor assigns each keyword argument to a
same-named field), default-decoding and then default-encoding returns a
mapping equal to the original document. -/
theorem default_codec_round_trip (c : KwClass) (d : Doc)
    (h : keysMatch (docKeys d) c.ctorFields = true) :
    ∃ o, defaultDecoder c d = .ok o ∧ defaultEncoder o = d :=
  ⟨⟨d⟩, by simp [defaultDecoder, kwCall, h], rfl⟩

/-- Witness for C8: a two-field document whose keys match the class
fields (in a different order) round-trips to itself. -/
theorem default_codec_round_trip_witness :
    ∃ o, defaultDecoder ⟨["a", "b"]⟩ [("b", Value.int 2), ("a", Value.int 1)] = .ok o
      ∧ defaultEncoder o = [("b", Value.int 2), ("a", Value.int 1)] :=
  default_codec_round_trip ⟨["a", "b"]⟩ [("b", Value.int 2), ("a", Value.int 1)] (by decide)

/-- C9: `_append` never removes existing documents — an empty (possibly
normalized) input leaves the collection unchanged, every append leaves
the prior contents as a prefix of the result, and appending a
one-element list to a non-empty collection grows it by exactly one
element while preserving every prior document. -/
theorem append_frame_properties (enc : Datum → Doc) (coll : Collection) :
    appendData enc (.list []) coll = coll
    ∧ (∀ data, ∃ tail, appendData enc data coll = coll ++ tail)
    ∧ (coll ≠ [] → ∀ x,
        (appendData enc (.list [x]) coll).length = coll.length + 1
        ∧ ∃ tail, appendData enc (.list [x]) coll = coll ++ tail ∧ tail.length = 1) := by
  refine ⟨rfl, ?_, ?_⟩
  · intro data
    cases hn : normalizeData data with
    | nil => exact ⟨[], by simp [appendData, hn]⟩
    | cons x rest =>
      by_cases hx : x.isDict
      · exact ⟨x :: rest, by simp [appendData, hn, insertDicts, hx]⟩
      · exact ⟨(x :: rest).map fun row => Datum.dict (enc row),
          by simp [appendData, hn, insertDicts, hx]⟩
  · intro _ x
    by_cases hx : x.isDict <;>
      refine ⟨by simp [appendData, normalizeData, insertDicts, hx], ?_⟩
    · exact ⟨[x], by simp [appendData, normalizeData, insertDicts, hx], rfl⟩
    · exact ⟨[Datum.dict (enc x)],
        by simp [appendData, normalizeData, insertDicts, hx], rfl⟩

/-- Witness for C9: appending one document to a non-empty collection
keeps the prior document and adds exactly one. -/
theorem append_frame_properties_witness :
    (appendData (fun _ => []) (PyData.list [Datum.dict [("a", Value.int 1)]])
        [Datum.dict [("p", Value.int 0)]]).length
      = [Datum.dict [("p", Value.int 0)]].length + 1 := by
  have h := ((append_frame_properties (fun _ => [])
      [Datum.dict [("p", Value.int 0)]]).2.2 (by simp)
      (Datum.dict [("a", Value.int 1)])).1
  simpa using h

/-- C10 (implicit): a condition whose operator is outside the six enum
members is silently skipped — removing it from the sequence leaves the
built predicate list unchanged — and a non-empty condition list made
entirely of such operators translates, without error, to a conjunction
(under AND) or disjunction (under OR) over the empty predicate list. -/
theorem unrecognized_operator_ignored (k : String) (v : Value) (tag : String)
    (cs1 cs2 cs : List Condition) (h1 : cs ≠ [])
    (h2 : ∀ p ∈ cs, Operator.isMember p.2.2 = false) :
    condPredicates (cs1 ++ (k, v, .other tag) :: cs2) = condPredicates (cs1 ++ cs2)
    ∧ readByQuery (some (.list cs)) .AND = .ok (.andQ [])
    ∧ readByQuery (some (.list cs)) .OR = .ok (.orQ []) := by
  have hskip : ∀ es1 : List Condition,
      condPredicates (es1 ++ (k, v, .other tag) :: cs2) = condPredicates (es1 ++ cs2) := by
    intro es1
    induction es1 with
    | nil => rfl
    | cons head tail ih =>
      obtain ⟨k', v', op⟩ := head
      cases op <;> simp [condPredicates, ih]
  have hempty : ∀ es : List Condition, (∀ p ∈ es, Operator.isMember p.2.2 = false) →
      condPredicates es = [] := by
    intro es
    induction es with
    | nil => exact fun _ => rfl
    | cons head tail ih =>
      intro hmem
      obtain ⟨k', v', op⟩ := head
      have hop := hmem _ (List.mem_cons_self _ _)
      have htail := ih fun p hp => hmem p (List.mem_cons_of_mem _ hp)
      cases op <;> simp_all [condPredicates, Operator.isMember]
  have hc := hempty cs h2
  refine ⟨hskip cs1, ?_, ?_⟩
  · cases cs with
    | nil => exact absurd rfl h1
    | cons x rest =>
      show Except.ok (FindArg.andQ (condPredicates (x :: rest))) = .ok (.andQ [])
      rw [hc]
  · cases cs with
    | nil => exact absurd rfl h1
    | cons x rest =>
      show Except.ok (FindArg.orQ (condPredicates (x :: rest))) = .ok (.orQ [])
      rw [hc]

/-- Witness for C10: a one-condition list whose operator is not an enum
member translates under AND, without error, to a conjunction over no
predicates. -/
theorem unrecognized_operator_ignored_witness :
    readByQuery (some (.list [("z", Value.int 0, Operator.other "LIKE")])) .AND
      = .ok (.andQ []) :=
  (unrecognized_operator_ignored "k" (Value.int 0) "LIKE" [] []
    [("z", Value.int 0, Operator.other "LIKE")] (by simp) (by decide)).2.1

end Mongo
